import Mathlib

/-!
Shallow embedding of the PR-Manager webhook subsystem
(src/packages/backend/src/services/webhookAudit.ts,
src/packages/backend/src/routes/webhook.ts, and the retry-queue job
`processWebhookQueue`), together with theorems settling the frozen claims
about the natural-language specification.

The relational store is modelled as an explicit state (`DB`) holding the
`webhook_events` rows, the `webhook_queue` rows and the `subscriptions`
rows; every service function becomes a pure state-passing function.
Timestamps are milliseconds as `Nat` (the clock is a field of the state,
standing for `Date.now()`); Prisma-generated row ids are `Nat` drawn from a
counter. Fallible code (handlers that `throw`) returns `Except String`.
-/

namespace PRManager

/-- `data.attributes` of a LemonSqueezy webhook payload, restricted to the
fields the handlers in src/packages/backend/src/routes/webhook.ts read. -/
structure Attrs where
  status : String
  variant_id : Nat
  customer_id : Nat
  renews_at : Option Nat
  cancelled : Bool
  trial_ends_at : Option Nat
deriving Repr, DecidableEq

/-- `event.data`: the provider payload that is stored verbatim as the
`data` column of a webhook_events row (`data.id` plus `data.attributes`). -/
structure EventData where
  id : String
  attributes : Attrs
deriving Repr, DecidableEq

/-- `event.meta` of the verified envelope: the event name and
`meta.custom_data?.user_id` (the only `custom_data` field the handlers read). -/
structure EventMeta where
  event_name : String
  custom_data_user_id : Option String
deriving Repr, DecidableEq

/-- The verified `LemonSqueezyWebhookEvent` envelope as the handlers consume it. -/
structure LemonSqueezyWebhookEvent where
  meta : EventMeta
  data : EventData
deriving Repr, DecidableEq

/-- One `webhook_events` row. `eventId` is the provider-assigned external id
(unique column); `id` is the Prisma-generated primary key. -/
structure WebhookEvent where
  id : Nat
  eventId : String
  eventName : String
  data : EventData
  processed : Bool
  processedAt : Option Nat
  error : Option String
  errorCount : Nat
  createdAt : Nat
deriving Repr, DecidableEq

/-- One `webhook_queue` row; `webhookEventId` is a unique foreign key to the
event row. -/
structure QueueItem where
  id : Nat
  webhookEventId : Nat
  nextRetry : Nat
  retryCount : Nat
deriving Repr, DecidableEq

/-- One `subscriptions` row, restricted to the columns the webhook handlers
write or filter on. -/
structure Subscription where
  userId : String
  lemonSqueezyCustomerId : String
  lemonSqueezySubscriptionId : String
  lemonSqueezyVariantId : String
  status : String
  currentPeriodStart : Nat
  currentPeriodEnd : Nat
  cancelAtPeriodEnd : Bool
  trialEndsAt : Option Nat
deriving Repr, DecidableEq

/-- The durable state: the three tables, the id counter standing for
Prisma's generated ids, and the current clock (`Date.now()` in ms). -/
structure DB where
  events : List WebhookEvent
  queue : List QueueItem
  subs : List Subscription
  nextId : Nat
  now : Nat
deriving Repr, DecidableEq

/-- Database well-formedness: the unique constraints Prisma enforces
(unique primary keys, unique `eventId` on events, unique `id` and unique
`webhookEventId` on queue items). -/
def DB.wf (db : DB) : Prop :=
  db.events.Pairwise (fun a b => a.id ≠ b.id ∧ a.eventId ≠ b.eventId) ∧
  db.queue.Pairwise (fun a b => a.id ≠ b.id ∧ a.webhookEventId ≠ b.webhookEventId)

instance (db : DB) : Decidable db.wf := by
  unfold DB.wf; infer_instance

/-- The row `prisma.webhookEvent.create` inserts for `logWebhookEvent`:
`processed: false` explicitly, the schema defaults for `error`/`errorCount`/
`createdAt`, and a generated primary key. -/
def newWebhookEvent (eventId eventName : String) (data : EventData) (db : DB) :
    WebhookEvent :=
  { id := db.nextId, eventId := eventId, eventName := eventName,
    data := data, processed := false, processedAt := none,
    error := none, errorCount := 0, createdAt := db.now }

/-- `logWebhookEvent(eventId, eventName, data)` from webhookAudit.ts: try to
create the row; a unique-constraint failure on the external id is absorbed by
looking up the existing row and returning its Prisma id. In the model the
create fails exactly when a row with that `eventId` already exists. -/
def logWebhookEvent (eventId eventName : String) (data : EventData) (db : DB) :
    Nat × DB :=
  match db.events.find? (fun e => e.eventId == eventId) with
  | some existing => (existing.id, db)
  | none =>
      (db.nextId,
       { db with events := db.events ++ [newWebhookEvent eventId eventName data db],
                 nextId := db.nextId + 1 })

/-- `markWebhookProcessed(webhookEventId)` from webhookAudit.ts: set
`processed = true` and `processedAt = now` on the event row. It touches no
other table. -/
def markWebhookProcessed (webhookEventId : Nat) (db : DB) : DB :=
  { db with
    events := db.events.map (fun e =>
      if e.id == webhookEventId then
        { e with processed := true, processedAt := some db.now }
      else e) }

/-- `getRetryDelay(attemptNumber)` from webhookAudit.ts: the backoff table
[5m, 30m, 2h, 24h] in milliseconds, indexed by `min(attemptNumber - 1,
delays.length - 1)` (clamped at the last entry). -/
def getRetryDelay (attemptNumber : Nat) : Nat :=
  let delays := [5 * 60 * 1000, 30 * 60 * 1000, 2 * 60 * 60 * 1000, 24 * 60 * 60 * 1000]
  delays.getD (min (attemptNumber - 1) (delays.length - 1)) 0

/-- `enqueueForRetry(webhookEventId, delayMs)` from webhookAudit.ts: upsert
the queue item — create it with `retryCount = 1` if absent, otherwise push
`nextRetry` forward and increment `retryCount`. -/
def enqueueForRetry (webhookEventId : Nat) (delayMs : Nat) (db : DB) : DB :=
  let nextRetry := db.now + delayMs
  match db.queue.find? (fun q => q.webhookEventId == webhookEventId) with
  | some _ =>
      { db with
        queue := db.queue.map (fun q =>
          if q.webhookEventId == webhookEventId then
            { q with nextRetry := nextRetry, retryCount := q.retryCount + 1 }
          else q) }
  | none =>
      { db with
        queue := db.queue ++
          [{ id := db.nextId, webhookEventId := webhookEventId,
             nextRetry := nextRetry, retryCount := 1 }],
        nextId := db.nextId + 1 }

/-- `logWebhookError(webhookEventId, error, shouldRetry)` from
webhookAudit.ts: increment `errorCount`, store the message, and — when
`shouldRetry` and the new count is still below 5 — upsert a retry-queue item
with the backoff delay computed from the new count. It never deletes queue
items. A Prisma update on a missing id would throw; the claims only exercise
existing ids, so the model leaves the state unchanged in that case. -/
def logWebhookError (webhookEventId : Nat) (errorMessage : String)
    (shouldRetry : Bool) (db : DB) : DB :=
  match db.events.find? (fun e => e.id == webhookEventId) with
  | none => db
  | some e =>
      let newCount := e.errorCount + 1
      let db1 : DB :=
        { db with
          events := db.events.map (fun x =>
            if x.id == webhookEventId then
              { x with error := some errorMessage, errorCount := x.errorCount + 1 }
            else x) }
      if shouldRetry && newCount < 5 then
        enqueueForRetry webhookEventId (getRetryDelay newCount) db1
      else db1

/-- `getWebhookEvent(webhookEventId)` from webhookAudit.ts (the event part;
the included queue item is looked up separately where needed). -/
def getWebhookEvent (webhookEventId : Nat) (db : DB) : Option WebhookEvent :=
  db.events.find? (fun e => e.id == webhookEventId)

/-- `getPendingWebhooks(limit = 100)` from webhookAudit.ts: unprocessed
events with `errorCount < 5`, ordered by `createdAt` ascending, capped at
`limit`. -/
def getPendingWebhooks (limit : Nat) (db : DB) : List WebhookEvent :=
  ((db.events.filter (fun e => !e.processed && e.errorCount < 5)).insertionSort
    (fun a b => a.createdAt ≤ b.createdAt)).take limit

/-- `getFailedWebhooks(limit = 100)` from webhookAudit.ts: events with
`errorCount ≥ 5`, ordered by `createdAt` descending, capped at `limit`. -/
def getFailedWebhooks (limit : Nat) (db : DB) : List WebhookEvent :=
  ((db.events.filter (fun e => 5 ≤ e.errorCount)).insertionSort
    (fun a b => b.createdAt ≤ a.createdAt)).take limit

/-- `replayWebhook(webhookEventId)` from webhookAudit.ts: throw if the event
does not exist, otherwise set `processed = false` and clear `error` —
`errorCount` is left untouched. -/
def replayWebhook (webhookEventId : Nat) (db : DB) : Except String DB :=
  match getWebhookEvent webhookEventId db with
  | none => .error ("Webhook event not found: " ++ toString webhookEventId)
  | some _ =>
      .ok { db with
        events := db.events.map (fun e =>
          if e.id == webhookEventId then
            { e with processed := false, error := none }
          else e) }

/-- 30 days in milliseconds (`30 * 24 * 60 * 60 * 1000`). -/
def thirtyDaysMs : Nat := 30 * 24 * 60 * 60 * 1000

/-- `handleSubscriptionCreated` from routes/webhook.ts: throw when
`meta.custom_data?.user_id` is falsy — missing *or* the empty string
(`if (!userId)` in JS); otherwise upsert the subscription row keyed by
`lemonSqueezySubscriptionId = data.id`, defaulting the period end to
30 days from now when `renews_at` is absent. -/
def handleSubscriptionCreated (event : LemonSqueezyWebhookEvent) (db : DB) :
    Except String DB :=
  match event.meta.custom_data_user_id with
  | none => .error "Missing user_id in webhook data"
  | some userId =>
      if userId == "" then .error "Missing user_id in webhook data" else
      let attrs := event.data.attributes
      let now := db.now
      let renewsAt := match attrs.renews_at with
        | some r => r
        | none => now + thirtyDaysMs
      if db.subs.any (fun s => s.lemonSqueezySubscriptionId == event.data.id) then
        .ok { db with
          subs := db.subs.map (fun s =>
            if s.lemonSqueezySubscriptionId == event.data.id then
              { s with
                status := attrs.status,
                lemonSqueezyVariantId := toString attrs.variant_id,
                currentPeriodStart := now,
                currentPeriodEnd := renewsAt,
                cancelAtPeriodEnd := attrs.cancelled,
                trialEndsAt := attrs.trial_ends_at }
            else s) }
      else
        .ok { db with
          subs := db.subs ++
            [{ userId := userId,
               lemonSqueezyCustomerId := toString attrs.customer_id,
               lemonSqueezySubscriptionId := event.data.id,
               lemonSqueezyVariantId := toString attrs.variant_id,
               status := attrs.status,
               currentPeriodStart := now,
               currentPeriodEnd := renewsAt,
               cancelAtPeriodEnd := attrs.cancelled,
               trialEndsAt := attrs.trial_ends_at }] }

/-- `handleSubscriptionUpdated` from routes/webhook.ts: `updateMany` on the
matching subscription rows. When `renews_at` is absent the TS code passes
`currentPeriodEnd: undefined`, which Prisma drops from the update — the
stored period end is left unchanged, modelled by `Option.getD` with the old
value. -/
def handleSubscriptionUpdated (event : LemonSqueezyWebhookEvent) (db : DB) :
    Except String DB :=
  let attrs := event.data.attributes
  .ok { db with
    subs := db.subs.map (fun s =>
      if s.lemonSqueezySubscriptionId == event.data.id then
        { s with
          status := attrs.status,
          lemonSqueezyVariantId := toString attrs.variant_id,
          currentPeriodEnd := attrs.renews_at.getD s.currentPeriodEnd,
          cancelAtPeriodEnd := attrs.cancelled,
          trialEndsAt := attrs.trial_ends_at }
      else s) }

/-- `handleSubscriptionCancelled` from routes/webhook.ts. -/
def handleSubscriptionCancelled (event : LemonSqueezyWebhookEvent) (db : DB) :
    Except String DB :=
  let attrs := event.data.attributes
  .ok { db with
    subs := db.subs.map (fun s =>
      if s.lemonSqueezySubscriptionId == event.data.id then
        { s with status := attrs.status, cancelAtPeriodEnd := true }
      else s) }

/-- `handleSubscriptionResumed` from routes/webhook.ts. -/
def handleSubscriptionResumed (event : LemonSqueezyWebhookEvent) (db : DB) :
    Except String DB :=
  let attrs := event.data.attributes
  .ok { db with
    subs := db.subs.map (fun s =>
      if s.lemonSqueezySubscriptionId == event.data.id then
        { s with status := attrs.status, cancelAtPeriodEnd := false }
      else s) }

/-- `handleSubscriptionExpired` from routes/webhook.ts. -/
def handleSubscriptionExpired (event : LemonSqueezyWebhookEvent) (db : DB) :
    Except String DB :=
  .ok { db with
    subs := db.subs.map (fun s =>
      if s.lemonSqueezySubscriptionId == event.data.id then
        { s with status := "expired" }
      else s) }

/-- `handleSubscriptionPaused` from routes/webhook.ts. -/
def handleSubscriptionPaused (event : LemonSqueezyWebhookEvent) (db : DB) :
    Except String DB :=
  .ok { db with
    subs := db.subs.map (fun s =>
      if s.lemonSqueezySubscriptionId == event.data.id then
        { s with status := "paused" }
      else s) }

/-- `handleSubscriptionUnpaused` from routes/webhook.ts. -/
def handleSubscriptionUnpaused (event : LemonSqueezyWebhookEvent) (db : DB) :
    Except String DB :=
  let attrs := event.data.attributes
  .ok { db with
    subs := db.subs.map (fun s =>
      if s.lemonSqueezySubscriptionId == event.data.id then
        { s with status := attrs.status }
      else s) }

/-- `handlePaymentSuccess` from routes/webhook.ts: `updateMany` restricted to
rows whose status is exactly `'past_due'`; sets status to `'active'` and —
only when `renews_at` is supplied — the period end (`undefined` is dropped by
Prisma, modelled by keeping the old value). -/
def handlePaymentSuccess (event : LemonSqueezyWebhookEvent) (db : DB) :
    Except String DB :=
  let attrs := event.data.attributes
  .ok { db with
    subs := db.subs.map (fun s =>
      if s.lemonSqueezySubscriptionId == event.data.id && s.status == "past_due" then
        { s with
          status := "active",
          currentPeriodEnd := attrs.renews_at.getD s.currentPeriodEnd }
      else s) }

/-- `handlePaymentFailed` from routes/webhook.ts: set the status from the
payload; the outbound e-mail is fire-and-forget (its failure is swallowed and
it changes no durable state), so it does not appear in the state model. -/
def handlePaymentFailed (event : LemonSqueezyWebhookEvent) (db : DB) :
    Except String DB :=
  let attrs := event.data.attributes
  .ok { db with
    subs := db.subs.map (fun s =>
      if s.lemonSqueezySubscriptionId == event.data.id then
        { s with status := attrs.status }
      else s) }

/-- The event-kind switch shared by the ingress route and
`processWebhookByName` in routes/webhook.ts: route each known kind to its
handler; unknown kinds are logged and ignored (success, no state change). -/
def dispatchSwitch (eventName : String) (event : LemonSqueezyWebhookEvent)
    (db : DB) : Except String DB :=
  match eventName with
  | "subscription_created" => handleSubscriptionCreated event db
  | "subscription_updated" => handleSubscriptionUpdated event db
  | "subscription_cancelled" => handleSubscriptionCancelled event db
  | "subscription_resumed" => handleSubscriptionResumed event db
  | "subscription_expired" => handleSubscriptionExpired event db
  | "subscription_paused" => handleSubscriptionPaused event db
  | "subscription_unpaused" => handleSubscriptionUnpaused event db
  | "subscription_payment_success" => handlePaymentSuccess event db
  | "subscription_payment_failed" => handlePaymentFailed event db
  | _ => .ok db

/-- `processWebhookByName(eventName, eventData)` from routes/webhook.ts, used
by the retry sweep: rebuild an envelope from the stored payload. The stored
`data` column holds only `event.data` (no `meta`), so the rebuilt meta falls
back to `{ custom_data: {} }` — `user_id` is absent (`event_name` is set here
for convenience; no handler reads it). -/
def processWebhookByName (eventName : String) (eventData : EventData)
    (db : DB) : Except String DB :=
  dispatchSwitch eventName
    { meta := { event_name := eventName, custom_data_user_id := none },
      data := eventData } db

/-- The JSON body of the (always HTTP 200) ingress response:
`{ received: true, eventId, cached?: true, warning?: string }`. An absent
`cached` flag is `false`, an absent `warning` is `none`. -/
structure IngressResponse where
  received : Bool
  eventId : Nat
  cached : Bool := false
  warning : Option String := none
deriving Repr, DecidableEq

/-- `router.post('/lemonsqueezy')` from routes/webhook.ts, parameterised by
the dispatcher (the inline event-kind switch): log the event, short-circuit
with `cached: true` if it is already processed, otherwise dispatch; on
success mark processed, on a dispatcher throw record the failure with
`shouldRetry = true` — and reply with a success body in every case. -/
def routerPostWith
    (d : String → LemonSqueezyWebhookEvent → DB → Except String DB)
    (event : LemonSqueezyWebhookEvent) (db : DB) : IngressResponse × DB :=
  let eventName := event.meta.event_name
  let eventId := event.data.id
  let r := logWebhookEvent eventId eventName event.data db
  let webhookEventId := r.1
  let db1 := r.2
  let proceed : IngressResponse × DB :=
    match d eventName event db1 with
    | .ok db2 =>
        ({ received := true, eventId := webhookEventId },
         markWebhookProcessed webhookEventId db2)
    | .error msg =>
        ({ received := true, eventId := webhookEventId,
           warning := some "Processing failed but logged for retry" },
         logWebhookError webhookEventId msg true db1)
  match getWebhookEvent webhookEventId db1 with
  | some existingEvent =>
      if existingEvent.processed then
        ({ received := true, eventId := webhookEventId, cached := true }, db1)
      else proceed
  | none => proceed

/-- The concrete ingress route: `routerPostWith` applied to the route's own
event-kind switch. -/
def routerPostLemonsqueezy (event : LemonSqueezyWebhookEvent) (db : DB) :
    IngressResponse × DB :=
  routerPostWith dispatchSwitch event db

/-- `MAX_RETRIES` from the webhook-queue job. -/
def MAX_RETRIES : Nat := 5

/-- Deletion of a queue row by its primary key
(`prisma.webhookQueue.delete({ where: { id } })`). -/
def deleteQueueItem (qid : Nat) (db : DB) : DB :=
  { db with queue := db.queue.filter (fun q => q.id != qid) }

/-- The permanent-failure write of the sweep: set the event's `error` to
`"Max retries exceeded: " ++ msg` and `errorCount` to `MAX_RETRIES` directly. -/
def markPermanentlyFailed (eventId : Nat) (msg : String) (db : DB) : DB :=
  { db with
    events := db.events.map (fun e =>
      if e.id == eventId then
        { e with error := some ("Max retries exceeded: " ++ msg),
                 errorCount := MAX_RETRIES }
      else e) }

/-- `processWebhookQueue` from the retry-queue job: snapshot up to 10 due
queue items (with their included events, read from the pre-sweep state), then
for each one re-dispatch the stored payload; on success mark the event
processed and delete the item; on failure take the permanent-failure path
when `retryCount >= MAX_RETRIES - 1`, otherwise call `logWebhookError` to
reschedule. A missing included event cannot occur (required foreign key); the
model skips such an item. -/
def processWebhookQueue (db : DB) : DB :=
  let readyForRetry := (db.queue.filter (fun q => q.nextRetry ≤ db.now)).take 10
  readyForRetry.foldl (fun acc queueItem =>
    match db.events.find? (fun e => e.id == queueItem.webhookEventId) with
    | none => acc
    | some event =>
        match processWebhookByName event.eventName event.data acc with
        | .ok acc1 =>
            deleteQueueItem queueItem.id (markWebhookProcessed event.id acc1)
        | .error msg =>
            if MAX_RETRIES - 1 ≤ queueItem.retryCount then
              deleteQueueItem queueItem.id (markPermanentlyFailed event.id msg acc)
            else
              logWebhookError event.id msg true acc) db

/-- Advance the model clock: stands for real time passing between two calls
(each TS function reads `Date.now()` afresh). -/
def DB.setNow (db : DB) (t : Nat) : DB := { db with now := t }

/-- The spec's §3 invariant, stated verbatim over the model: a
RetryQueueItem exists if and only if its Event is unprocessed and has not
exceeded the maximum retry count (5). -/
def retryInvariant (db : DB) : Prop :=
  ∀ e ∈ db.events,
    ((∃ q ∈ db.queue, q.webhookEventId = e.id) ↔
      (e.processed = false ∧ e.errorCount < 5))

instance (db : DB) : Decidable (retryInvariant db) := by
  unfold retryInvariant; infer_instance

/-! Concrete fixtures used by counterexamples and witnesses. -/

/-- A payload whose `renews_at` is absent. -/
def attrs0 : Attrs :=
  { status := "active", variant_id := 1, customer_id := 1,
    renews_at := none, cancelled := false, trial_ends_at := none }

/-- A stored `event.data` payload for subscription `"sub-1"`. -/
def data0 : EventData := { id := "sub-1", attributes := attrs0 }

/-- The empty database at clock 0. -/
def emptyDB : DB := { events := [], queue := [], subs := [], nextId := 0, now := 0 }

/-- One freshly logged event (internal id 0, external id `"ext-1"`). -/
def dbOne : DB := (logWebhookEvent "ext-1" "subscription_expired" data0 emptyDB).2

/-- `dbOne` after one recorded failure with `shouldRetry = true`:
`errorCount = 1` and a queue item exists. -/
def dbOneFailed : DB := logWebhookError 0 "boom" true dbOne

/-- `dbOneFailed` after the ingress success path marks the event processed. -/
def dbOneFailedProcessed : DB := markWebhookProcessed 0 dbOneFailed

/-- `dbOne` after five recorded failures with `shouldRetry = true` each time. -/
def afterFiveFailures : DB :=
  logWebhookError 0 "e5" true (logWebhookError 0 "e4" true
    (logWebhookError 0 "e3" true (logWebhookError 0 "e2" true
      (logWebhookError 0 "e1" true dbOne))))

/-- An inbound `subscription_created` envelope missing
`meta.custom_data.user_id` (its dispatch throws). -/
def evC8 : LemonSqueezyWebhookEvent :=
  { meta := { event_name := "subscription_created", custom_data_user_id := none },
    data := data0 }

/-- The state after logging `evC8` on the empty database. -/
def dbLoggedC8 : DB :=
  (logWebhookEvent "sub-1" "subscription_created" data0 emptyDB).2

/-- An already-processed event row for external id `"sub-1"`. -/
def processedEvent : WebhookEvent :=
  { id := 0, eventId := "sub-1", eventName := "subscription_updated",
    data := data0, processed := true, processedAt := some 5,
    error := none, errorCount := 0, createdAt := 0 }

/-- A database with one already-processed event for external id `"sub-1"`. -/
def dbProcessed : DB :=
  { events := [processedEvent], queue := [], subs := [], nextId := 1, now := 10 }

/-- A `subscription_updated` envelope for subscription `"sub-1"` (no
`renews_at` in the payload). -/
def evUpdated : LemonSqueezyWebhookEvent :=
  { meta := { event_name := "subscription_updated", custom_data_user_id := none },
    data := data0 }

/-- A `subscription_created` envelope for subscription `"sub-1"` carrying a
`user_id` and no `renews_at`. -/
def evCreated : LemonSqueezyWebhookEvent :=
  { meta := { event_name := "subscription_created", custom_data_user_id := some "u1" },
    data := data0 }

/-- An existing subscription row for `"sub-1"` with period end 7. -/
def sub0 : Subscription :=
  { userId := "u1", lemonSqueezyCustomerId := "1",
    lemonSqueezySubscriptionId := "sub-1", lemonSqueezyVariantId := "1",
    status := "active", currentPeriodStart := 0, currentPeriodEnd := 7,
    cancelAtPeriodEnd := false, trialEndsAt := none }

/-- A past-due subscription row for `"sub-1"`. -/
def subPastDue : Subscription :=
  { userId := "u2", lemonSqueezyCustomerId := "2",
    lemonSqueezySubscriptionId := "sub-1", lemonSqueezyVariantId := "1",
    status := "past_due", currentPeriodStart := 0, currentPeriodEnd := 7,
    cancelAtPeriodEnd := false, trialEndsAt := none }

/-- A database holding only `sub0`, at clock 1000. -/
def dbWithSub : DB :=
  { events := [], queue := [], subs := [sub0], nextId := 0, now := 1000 }

/-- A database holding a past-due row and an active row for `"sub-1"`. -/
def dbTwoSubs : DB :=
  { events := [], queue := [], subs := [subPastDue, sub0], nextId := 0, now := 1000 }

/-- An unprocessed event at `errorCount = 4` holding a stored
`subscription_created` payload — its re-dispatch always fails, because the
stored data carries no `meta.custom_data.user_id`. -/
def sweepEvent : WebhookEvent :=
  { id := 0, eventId := "ext-5", eventName := "subscription_created",
    data := data0, processed := false, processedAt := none,
    error := some "e4", errorCount := 4, createdAt := 0 }

/-- A due queue item for `sweepEvent` at `retryCount = 4`. -/
def sweepItem : QueueItem :=
  { id := 1, webhookEventId := 0, nextRetry := 0, retryCount := 4 }

/-- A database where the sweep finds `sweepItem` due. -/
def dbSweep4 : DB :=
  { events := [sweepEvent], queue := [sweepItem], subs := [], nextId := 2, now := 100 }

/-- A permanently failed, processed event row (`errorCount = 5`). -/
def failedEvent : WebhookEvent :=
  { id := 0, eventId := "ext-1", eventName := "subscription_expired",
    data := data0, processed := true, processedAt := some 0,
    error := some "Max retries exceeded: x", errorCount := 5, createdAt := 0 }

/-- A database holding only `failedEvent`. -/
def dbFailed : DB :=
  { events := [failedEvent], queue := [], subs := [], nextId := 1, now := 0 }

/-! General lemmas about `find?` and `countP` under unique keys, and about
membership in the limited, sorted query results. -/

theorem find?_key_eq_of_mem {α κ : Type _} [BEq κ] [LawfulBEq κ] (key : α → κ)
    {l : List α} {e : α} (hk : l.Pairwise (fun a b => key a ≠ key b))
    (he : e ∈ l) : l.find? (fun x => key x == key e) = some e := by
  induction l with
  | nil => cases he
  | cons a l ih =>
      rw [List.pairwise_cons] at hk
      rcases List.mem_cons.mp he with rfl | he'
      · exact List.find?_cons_of_pos _ (by simp)
      · rw [List.find?_cons_of_neg _ (by simp [hk.1 e he'])]
        exact ih hk.2 he'

theorem countP_key_eq_one {α κ : Type _} [BEq κ] [LawfulBEq κ] (key : α → κ)
    {l : List α} {e : α} (hk : l.Pairwise (fun a b => key a ≠ key b))
    (he : e ∈ l) : l.countP (fun x => key x == key e) = 1 := by
  induction l with
  | nil => cases he
  | cons a l ih =>
      rw [List.pairwise_cons] at hk
      rw [List.countP_cons]
      rcases List.mem_cons.mp he with rfl | he'
      · have hz : l.countP (fun x => key x == key e) = 0 :=
          List.countP_eq_zero.mpr (fun x hx => by simp [(hk.1 x hx).symm])
        simp [hz]
      · rw [ih hk.2 he']
        simp [hk.1 e he']

theorem find?_append_of_none {α : Type _} {p : α → Bool} {l l' : List α}
    (h : l.find? p = none) : (l ++ l').find? p = l'.find? p := by
  induction l with
  | nil => rfl
  | cons a l ih =>
      rw [List.find?_cons] at h
      cases hpa : p a with
      | true => simp [hpa] at h
      | false =>
          rw [List.cons_append, List.find?_cons_of_neg _ (by simp [hpa])]
          exact ih (by simpa [hpa] using h)

theorem not_mem_getPendingWebhooks {db : DB} {limit : Nat} {e : WebhookEvent}
    (hec : 5 ≤ e.errorCount) : e ∉ getPendingWebhooks limit db := by
  intro hmem
  have h1 := List.take_subset _ _ hmem
  have h2 := (List.mem_insertionSort
    (fun a b : WebhookEvent => a.createdAt ≤ b.createdAt)).mp h1
  have h3 := List.of_mem_filter h2
  simp at h3
  omega

theorem mem_getFailedWebhooks {db : DB} {limit : Nat} {e : WebhookEvent}
    (he : e ∈ db.events) (hec : 5 ≤ e.errorCount)
    (hlen : db.events.length ≤ limit) :
    e ∈ getFailedWebhooks limit db := by
  have hf : e ∈ db.events.filter (fun ev => 5 ≤ ev.errorCount) :=
    List.mem_filter_of_mem he (by simpa using hec)
  have hs := (List.mem_insertionSort
    (fun a b : WebhookEvent => b.createdAt ≤ a.createdAt)).mpr hf
  have hlen2 : ((db.events.filter (fun ev => 5 ≤ ev.errorCount)).insertionSort
      (fun a b : WebhookEvent => b.createdAt ≤ a.createdAt)).length ≤ limit := by
    rw [List.length_insertionSort]
    have hle := List.length_filter_le
      (fun ev : WebhookEvent => 5 ≤ ev.errorCount) db.events
    omega
  unfold getFailedWebhooks
  rw [List.take_of_length_le hlen2]
  exact hs

/-! The claims. -/

/-- Claim C1: calling `logWebhookEvent` twice with the same external id —
even with a different kind/payload on the second call — returns the same
internal event id both times, leaves the state of the first call unchanged
(the unique-constraint failure is absorbed, not reported), and exactly one
Event row for that external id exists. -/
theorem logWebhookEvent_idempotent (db : DB) (extId k1 k2 : String)
    (p1 p2 : EventData) (hwf : db.wf) :
    (logWebhookEvent extId k2 p2 (logWebhookEvent extId k1 p1 db).2).1
      = (logWebhookEvent extId k1 p1 db).1 ∧
    (logWebhookEvent extId k2 p2 (logWebhookEvent extId k1 p1 db).2).2
      = (logWebhookEvent extId k1 p1 db).2 ∧
    (logWebhookEvent extId k1 p1 db).2.events.countP
      (fun e => e.eventId == extId) = 1 := by
  have hpair : db.events.Pairwise (fun a b => a.eventId ≠ b.eventId) :=
    hwf.1.imp (fun h => h.2)
  cases hfind : db.events.find? (fun e => e.eventId == extId) with
  | some e =>
      have hmem := List.mem_of_find?_eq_some hfind
      have hkey : e.eventId = extId := by
        simpa using List.find?_some hfind
      have hcount : db.events.countP (fun x => x.eventId == extId) = 1 := by
        have h1 := countP_key_eq_one WebhookEvent.eventId hpair hmem
        rw [hkey] at h1
        exact h1
      simp [logWebhookEvent, hfind, hcount]
  | none =>
      have hcount0 : db.events.countP (fun x => x.eventId == extId) = 0 :=
        List.countP_eq_zero.mpr (List.find?_eq_none.mp hfind)
      have hnew : (db.events ++ [newWebhookEvent extId k1 p1 db]).find?
          (fun e => e.eventId == extId) = some (newWebhookEvent extId k1 p1 db) := by
        rw [find?_append_of_none hfind]
        exact List.find?_cons_of_pos _ (by simp [newWebhookEvent])
      simp [logWebhookEvent, hfind, hnew, newWebhookEvent,
        List.countP_append, hcount0, List.countP_cons]

/-- Witness for C1 at a concrete input: two `logWebhookEvent` calls with
external id `"ext-9"` on the empty database. -/
theorem logWebhookEvent_idempotent_witness :
    (logWebhookEvent "ext-9" "b" data0 (logWebhookEvent "ext-9" "a" data0 emptyDB).2).1
      = (logWebhookEvent "ext-9" "a" data0 emptyDB).1 ∧
    (logWebhookEvent "ext-9" "b" data0 (logWebhookEvent "ext-9" "a" data0 emptyDB).2).2
      = (logWebhookEvent "ext-9" "a" data0 emptyDB).2 ∧
    (logWebhookEvent "ext-9" "a" data0 emptyDB).2.events.countP
      (fun e => e.eventId == "ext-9") = 1 :=
  logWebhookEvent_idempotent emptyDB "ext-9" "a" "b" data0 data0 (by decide)

/-- Claim C2: when the event for the delivery's external id is already
`processed`, the ingress handler replies success with `cached: true`
immediately and leaves the whole database (in particular the subscription
state) unchanged — for every dispatcher `d`, so no event-kind handler can
have run. -/
theorem ingress_replay_short_circuit
    (d : String → LemonSqueezyWebhookEvent → DB → Except String DB)
    (event : LemonSqueezyWebhookEvent) (db : DB) (e : WebhookEvent)
    (hwf : db.wf) (he : e ∈ db.events) (hx : e.eventId = event.data.id)
    (hp : e.processed = true) :
    routerPostWith d event db =
      ({ received := true, eventId := e.id, cached := true, warning := none }, db) := by
  have hpair : db.events.Pairwise (fun a b => a.eventId ≠ b.eventId) :=
    hwf.1.imp (fun h => h.2)
  have hpid : db.events.Pairwise (fun a b => a.id ≠ b.id) :=
    hwf.1.imp (fun h => h.1)
  have hfind : db.events.find? (fun x => x.eventId == event.data.id) = some e := by
    have h1 := find?_key_eq_of_mem WebhookEvent.eventId hpair he
    rw [hx] at h1
    exact h1
  have hfid : db.events.find? (fun x => x.id == e.id) = some e :=
    find?_key_eq_of_mem WebhookEvent.id hpid he
  simp [routerPostWith, logWebhookEvent, hfind, getWebhookEvent, hfid, hp]

/-- Witness for C2: redelivering `"sub-1"` against a database whose event is
already processed, with the real dispatcher. -/
theorem ingress_replay_short_circuit_witness :
    routerPostWith dispatchSwitch evUpdated dbProcessed =
      ({ received := true, eventId := 0, cached := true, warning := none },
       dbProcessed) :=
  ingress_replay_short_circuit dispatchSwitch evUpdated dbProcessed
    processedEvent (by decide) (by decide) (by decide) (by decide)

/-- Claim C3 (counterexample): the if-and-only-if retry-queue invariant is
not preserved by `markWebhookProcessed`: from the reachable state `dbOneFailed`
(one unprocessed event with one recorded failure, where the invariant holds),
the ingress success path's `markWebhookProcessed` yields a processed event
that still has its retry-queue item. -/
theorem retryInvariant_broken_by_markProcessed :
    retryInvariant dbOneFailed ∧ ¬ retryInvariant dbOneFailedProcessed ∧
    (∃ e ∈ dbOneFailedProcessed.events, e.processed = true) ∧
    dbOneFailedProcessed.queue.length = 1 := by decide

/-- Claim C3 (amended): `markWebhookProcessed` never touches the retry
queue — the queue item is deleted only inside the retry sweep; the next sweep
over the violating state removes the orphan item (its re-dispatch of the
already-processed event succeeds), after which the invariant holds again. -/
theorem markProcessed_keeps_queue_sweep_deletes :
    (∀ (i : Nat) (db : DB), (markWebhookProcessed i db).queue = db.queue) ∧
    (processWebhookQueue (dbOneFailedProcessed.setNow 300000)).queue = [] ∧
    retryInvariant (processWebhookQueue (dbOneFailedProcessed.setNow 300000)) :=
  ⟨fun _ _ => rfl, by decide, by decide⟩

/-- Claim C4 (counterexample): after exactly 5 calls to `logWebhookError`
with `shouldRetry = true` for the same event, a RetryQueueItem still remains
(the claim says none remains); the event's `errorCount` is 5, and a 6th call
leaves the queue unchanged. -/
theorem five_failures_queue_not_empty :
    afterFiveFailures.queue.length = 1 ∧
    (∀ e ∈ afterFiveFailures.events, e.errorCount = 5) ∧
    (logWebhookError 0 "e6" true afterFiveFailures).queue
      = afterFiveFailures.queue := by decide

/-- Claim C4 (amended): after exactly 5 failures recorded by
`logWebhookError` with `shouldRetry = true`, the event's `errorCount` is 5
and the queue item created by the first failure and last updated by the 4th
remains, with `retryCount = 4` and the 24h backoff — `logWebhookError` never
deletes queue items; neither the 5th nor a 6th call creates or updates one. -/
theorem five_failures_trace (i n t c : Nat) (x nm m1 m2 m3 m4 m5 m6 : String)
    (d : EventData) (b : Bool) (pa : Option Nat) (ss : List Subscription) :
    let ev0 : WebhookEvent :=
      { id := i, eventId := x, eventName := nm, data := d, processed := b,
        processedAt := pa, error := none, errorCount := 0, createdAt := c }
    let db0 : DB := { events := [ev0], queue := [], subs := ss, nextId := n, now := t }
    let s5 := logWebhookError i m5 true (logWebhookError i m4 true
      (logWebhookError i m3 true (logWebhookError i m2 true
        (logWebhookError i m1 true db0))))
    let s6 := logWebhookError i m6 true s5
    s5.events = [{ id := i, eventId := x, eventName := nm, data := d, processed := b,
                   processedAt := pa, error := some m5, errorCount := 5, createdAt := c }] ∧
    s5.queue = [{ id := n, webhookEventId := i,
                  nextRetry := t + 24 * 60 * 60 * 1000, retryCount := 4 }] ∧
    s6.queue = s5.queue ∧
    s6.events = [{ id := i, eventId := x, eventName := nm, data := d, processed := b,
                   processedAt := pa, error := some m6, errorCount := 6, createdAt := c }] := by
  simp [logWebhookError, enqueueForRetry, getRetryDelay]

/-- Claim C5 (counterexample): a due queue item at `retryCount = 4` — which
is strictly below 5, so the claim says the standard failure-recording path is
called — is instead taken down the permanent-failure path by one sweep: the
item is deleted and the event's `errorCount` is set to the ceiling with the
`"Max retries exceeded"` message, whereas the standard path
(`logWebhookError`) would have left the queue item in place. -/
theorem sweep_retryCount_four_goes_permanent :
    sweepItem.retryCount = 4 ∧
    (processWebhookQueue dbSweep4).queue = [] ∧
    (∀ e ∈ (processWebhookQueue dbSweep4).events,
      e.errorCount = 5 ∧
      e.error = some "Max retries exceeded: Missing user_id in webhook data") ∧
    (logWebhookError 0 "Missing user_id in webhook data" true dbSweep4).queue.length
      = 1 := by decide

/-- Claim C5 (amended): for a failing due item the sweep takes the
permanent-failure path (set `errorCount` to the ceiling directly, delete the
item) exactly when `retryCount ≥ MAX_RETRIES - 1 = 4`, i.e. when the failing
attempt is attempt `retryCount + 1 ≥ 5`; only for `retryCount ≤ 3` is the
standard failure-recording path (`logWebhookError`) called to reschedule. -/
theorem sweep_failure_threshold (db : DB) (q : QueueItem) (event : WebhookEvent)
    (msg : String)
    (hq : db.queue = [q]) (hdue : q.nextRetry ≤ db.now)
    (hev : db.events.find? (fun e => e.id == q.webhookEventId) = some event)
    (hfail : processWebhookByName event.eventName event.data db = .error msg) :
    (4 ≤ q.retryCount →
      processWebhookQueue db
        = deleteQueueItem q.id (markPermanentlyFailed event.id msg db) ∧
      (processWebhookQueue db).queue = []) ∧
    (q.retryCount < 4 →
      processWebhookQueue db = logWebhookError event.id msg true db) := by
  have hstep : processWebhookQueue db =
      (if MAX_RETRIES - 1 ≤ q.retryCount then
        deleteQueueItem q.id (markPermanentlyFailed event.id msg db)
      else logWebhookError event.id msg true db) := by
    simp [processWebhookQueue, hq, hdue, hev, hfail]
  constructor
  · intro h4
    rw [hstep, if_pos (by simpa [MAX_RETRIES] using h4)]
    refine ⟨rfl, ?_⟩
    simp [deleteQueueItem, markPermanentlyFailed, hq]
  · intro h4
    rw [hstep, if_neg (by simp [MAX_RETRIES]; omega)]

/-- Witness for the amended C5: the sweep over `dbSweep4` (item at
`retryCount = 4`, failing dispatch) takes the permanent-failure path. -/
theorem sweep_failure_threshold_witness :
    processWebhookQueue dbSweep4
      = deleteQueueItem sweepItem.id
          (markPermanentlyFailed sweepEvent.id "Missing user_id in webhook data" dbSweep4) ∧
    (processWebhookQueue dbSweep4).queue = [] :=
  (sweep_failure_threshold dbSweep4 sweepItem sweepEvent
    "Missing user_id in webhook data" rfl (by decide) (by decide) rfl).1 (by decide)

/-- Claim C6: the computed retry delays for attempt numbers 1..5 are 5m,
30m, 2h, 24h, 24h, and every attempt number above 4 clamps to the last table
entry (24h). -/
theorem getRetryDelay_schedule :
    getRetryDelay 1 = 5 * 60 * 1000 ∧ getRetryDelay 2 = 30 * 60 * 1000 ∧
    getRetryDelay 3 = 2 * 60 * 60 * 1000 ∧ getRetryDelay 4 = 24 * 60 * 60 * 1000 ∧
    getRetryDelay 5 = 24 * 60 * 60 * 1000 ∧
    ∀ n : Nat, 4 < n → getRetryDelay n = 24 * 60 * 60 * 1000 := by
  refine ⟨by decide, by decide, by decide, by decide, by decide, ?_⟩
  intro n hn
  have h3 : min (n - 1) 3 = 3 := by omega
  simp [getRetryDelay, h3]

/-- Witness for C6 at the concrete attempt number 6. -/
theorem getRetryDelay_schedule_witness :
    4 < 6 ∧ getRetryDelay 6 = 24 * 60 * 60 * 1000 :=
  ⟨by decide, getRetryDelay_schedule.2.2.2.2.2 6 (by decide)⟩

/-- Claim C7 (counterexample): replaying the permanently failed event of
`dbFailed` does clear `error` and set `processed = false`, but the event does
not reappear in `getPending` (result is empty) and does not disappear from
`getFailed` (it is still listed) — `replayWebhook` leaves `errorCount` at 5,
and the two queries filter on `errorCount` against the ceiling. -/
theorem replay_visibility_cex :
    (replayWebhook 0 dbFailed).map
        (fun db => (getPendingWebhooks 100 db,
          (getFailedWebhooks 100 db).map WebhookEvent.id))
      = Except.ok ([], [0]) ∧
    (replayWebhook 0 dbFailed).map
        (fun db => db.events.map (fun e => (e.processed, e.error, e.errorCount)))
      = Except.ok [(false, none, 5)] :=
  ⟨rfl, rfl⟩

/-- Claim C7 (amended): for every permanently failed event, `replayWebhook`
clears `error` and sets `processed = false` but leaves `errorCount`
untouched, so the event stays out of `getPending` and remains in `getFailed`
(whenever the table fits in the query limit). -/
theorem replay_keeps_errorCount (db : DB) (i limit : Nat) (e : WebhookEvent)
    (he : e ∈ db.events) (hid : e.id = i) (hec : 5 ≤ e.errorCount)
    (hlen : db.events.length ≤ limit) :
    ∃ db', replayWebhook i db = .ok db' ∧
      ∃ e' ∈ db'.events, e'.id = e.id ∧ e'.processed = false ∧ e'.error = none ∧
        e'.errorCount = e.errorCount ∧
        e' ∉ getPendingWebhooks limit db' ∧
        e' ∈ getFailedWebhooks limit db' := by
  have hbeq : (e.id == i) = true := by simp [hid]
  have hfound : (db.events.find? (fun x => x.id == i)).isSome :=
    List.find?_isSome.mpr ⟨e, he, hbeq⟩
  cases hf : db.events.find? (fun x => x.id == i) with
  | none => rw [hf] at hfound; simp at hfound
  | some w =>
      have hok : replayWebhook i db = .ok
          { db with
            events := db.events.map (fun x =>
              if x.id == i then { x with processed := false, error := none }
              else x) } := by
        simp [replayWebhook, getWebhookEvent, hf]
      refine ⟨_, hok, ?_⟩
      have h0 : (if e.id == i then
            ({ e with processed := false, error := none } : WebhookEvent)
          else e) ∈ db.events.map (fun x =>
            if x.id == i then { x with processed := false, error := none } else x) :=
        List.mem_map_of_mem _ he
      rw [if_pos hbeq] at h0
      refine ⟨{ e with processed := false, error := none }, h0, rfl, rfl, rfl, rfl,
        not_mem_getPendingWebhooks (by simpa using hec), ?_⟩
      apply mem_getFailedWebhooks h0 (by simpa using hec)
      show (db.events.map _).length ≤ limit
      rw [List.length_map]
      exact hlen

/-- Witness for the amended C7: replaying `failedEvent` inside `dbFailed`. -/
theorem replay_keeps_errorCount_witness :
    ∃ db', replayWebhook 0 dbFailed = .ok db' ∧
      ∃ e' ∈ db'.events, e'.id = failedEvent.id ∧ e'.processed = false ∧
        e'.error = none ∧ e'.errorCount = failedEvent.errorCount ∧
        e' ∉ getPendingWebhooks 100 db' ∧
        e' ∈ getFailedWebhooks 100 db' :=
  replay_keeps_errorCount dbFailed 0 100 failedEvent
    (by decide) (by decide) (by decide) (by decide)

/-- Claim C8: once the event is durably logged, a dispatcher failure makes
the ingress handler record the failure via `logWebhookError` with
`shouldRetry = true` and still reply with the success body carrying the
warning field — never a transport-level error (the response model is the body
of an unconditional HTTP 200). Stated for every dispatcher `d`. -/
theorem ingress_dispatch_failure
    (d : String → LemonSqueezyWebhookEvent → DB → Except String DB)
    (event : LemonSqueezyWebhookEvent) (db db1 : DB) (wid : Nat) (msg : String)
    (hlog : logWebhookEvent event.data.id event.meta.event_name event.data db
      = (wid, db1))
    (hnp : (getWebhookEvent wid db1).all (fun e => !e.processed) = true)
    (hfail : d event.meta.event_name event db1 = .error msg) :
    routerPostWith d event db =
      ({ received := true, eventId := wid, cached := false,
         warning := some "Processing failed but logged for retry" },
       logWebhookError wid msg true db1) := by
  simp only [routerPostWith, hlog]
  cases hg : getWebhookEvent wid db1 with
  | none => simp [hg, hfail]
  | some e2 =>
      rw [hg] at hnp
      simp [Option.all] at hnp
      simp [hg, hnp, hfail]

/-- Witness for C8: a `subscription_created` delivery without
`meta.custom_data.user_id` on the empty database — its handler throws. -/
theorem ingress_dispatch_failure_witness :
    routerPostWith dispatchSwitch evC8 emptyDB =
      ({ received := true, eventId := 0, cached := false,
         warning := some "Processing failed but logged for retry" },
       logWebhookError 0 "Missing user_id in webhook data" true dbLoggedC8) :=
  ingress_dispatch_failure dispatchSwitch evC8 emptyDB dbLoggedC8 0
    "Missing user_id in webhook data" rfl rfl rfl

/-- Claim C9 (counterexample): a `subscription_updated` dispatch whose
payload lacks `renews_at` leaves the stored period end (7) unchanged instead
of setting it to 30 days from processing time — only the creation handler
applies the 30-day default. -/
theorem updated_missing_renews_at_cex :
    evUpdated.data.attributes.renews_at = none ∧
    (handleSubscriptionUpdated evUpdated dbWithSub).map
        (fun db => db.subs.map Subscription.currentPeriodEnd) = Except.ok [7] ∧
    (7 : Nat) ≠ dbWithSub.now + thirtyDaysMs :=
  ⟨rfl, rfl, by decide⟩

/-- Claim C9 (amended): when `renews_at` is absent, `handleSubscriptionCreated`
— given a truthy (present and non-empty) `user_id`, without which it throws —
sets the period end of the affected subscription (updated or newly created)
to exactly 30 days from processing time, while `handleSubscriptionUpdated`
leaves every subscription's period end unchanged. -/
theorem renews_at_default_scope (event event2 : LemonSqueezyWebhookEvent)
    (db db2 : DB) (u : String)
    (hu : event.meta.custom_data_user_id = some u) (hune : u ≠ "")
    (hr : event.data.attributes.renews_at = none)
    (hr2 : event2.data.attributes.renews_at = none) :
    (∃ db', handleSubscriptionCreated event db = .ok db' ∧
      ∀ s ∈ db'.subs, s.lemonSqueezySubscriptionId = event.data.id →
        s.currentPeriodEnd = db.now + thirtyDaysMs) ∧
    (∃ db2', handleSubscriptionUpdated event2 db2 = .ok db2' ∧
      db2'.subs.map Subscription.currentPeriodEnd
        = db2.subs.map Subscription.currentPeriodEnd) := by
  constructor
  · by_cases hany : (db.subs.any
        (fun s => s.lemonSqueezySubscriptionId == event.data.id)) = true
    · refine ⟨{ db with subs := db.subs.map (fun s =>
          if s.lemonSqueezySubscriptionId == event.data.id then
            { s with status := event.data.attributes.status,
                     lemonSqueezyVariantId := toString event.data.attributes.variant_id,
                     currentPeriodStart := db.now,
                     currentPeriodEnd := db.now + thirtyDaysMs,
                     cancelAtPeriodEnd := event.data.attributes.cancelled,
                     trialEndsAt := event.data.attributes.trial_ends_at }
          else s) }, ?_, ?_⟩
      · simp [handleSubscriptionCreated, hu, hune, hr, hany]
      · intro s hs hsid
        obtain ⟨t, ht, rfl⟩ := List.mem_map.mp hs
        by_cases hts : (t.lemonSqueezySubscriptionId == event.data.id) = true
        · rw [if_pos hts]
        · rw [if_neg hts] at hsid ⊢
          exact absurd (by simp [hsid]) hts
    · refine ⟨{ db with subs := db.subs ++
          [{ userId := u,
             lemonSqueezyCustomerId := toString event.data.attributes.customer_id,
             lemonSqueezySubscriptionId := event.data.id,
             lemonSqueezyVariantId := toString event.data.attributes.variant_id,
             status := event.data.attributes.status,
             currentPeriodStart := db.now,
             currentPeriodEnd := db.now + thirtyDaysMs,
             cancelAtPeriodEnd := event.data.attributes.cancelled,
             trialEndsAt := event.data.attributes.trial_ends_at }] }, ?_, ?_⟩
      · simp [handleSubscriptionCreated, hu, hune, hr, hany]
      · intro s hs hsid
        rcases List.mem_append.mp hs with hs' | hs'
        · rw [List.any_eq_true] at hany
          exact absurd ⟨s, hs', by simp [hsid]⟩ hany
        · rw [List.mem_singleton] at hs'
          subst hs'
          rfl
  · refine ⟨_, rfl, ?_⟩
    show (db2.subs.map _).map _ = _
    rw [List.map_map]
    apply List.map_congr_left
    intro s hs
    by_cases hts : (s.lemonSqueezySubscriptionId == event2.data.id) = true
    · simp only [Function.comp, if_pos hts, hr2]
      rfl
    · simp only [Function.comp, if_neg hts]

/-- Witness for the amended C9: `evCreated` on the empty database and
`evUpdated` on `dbWithSub`, both without `renews_at`. -/
theorem renews_at_default_scope_witness :
    (∃ db', handleSubscriptionCreated evCreated emptyDB = .ok db' ∧
      ∀ s ∈ db'.subs, s.lemonSqueezySubscriptionId = evCreated.data.id →
        s.currentPeriodEnd = emptyDB.now + thirtyDaysMs) ∧
    (∃ db2', handleSubscriptionUpdated evUpdated dbWithSub = .ok db2' ∧
      db2'.subs.map Subscription.currentPeriodEnd
        = dbWithSub.subs.map Subscription.currentPeriodEnd) :=
  renews_at_default_scope evCreated evUpdated emptyDB dbWithSub "u1" rfl (by decide) rfl rfl

/-- Claim C10: `handlePaymentSuccess` touches no event or queue row and,
row by row over the subscription table, updates exactly the rows whose
status is `'past_due'` and whose id matches (setting status `'active'` and,
when `renews_at` is supplied, the period end, all other columns unchanged);
every other subscription row is left entirely unchanged. -/
theorem payment_success_only_past_due (event : LemonSqueezyWebhookEvent) (db : DB) :
    ∃ db', handlePaymentSuccess event db = .ok db' ∧
      db'.events = db.events ∧ db'.queue = db.queue ∧
      List.Forall₂ (fun s s' =>
        ((s.status = "past_due" ∧ s.lemonSqueezySubscriptionId = event.data.id) →
          s'.status = "active" ∧
          s'.currentPeriodEnd = event.data.attributes.renews_at.getD s.currentPeriodEnd ∧
          s'.userId = s.userId ∧ s'.lemonSqueezyCustomerId = s.lemonSqueezyCustomerId ∧
          s'.lemonSqueezySubscriptionId = s.lemonSqueezySubscriptionId ∧
          s'.lemonSqueezyVariantId = s.lemonSqueezyVariantId ∧
          s'.currentPeriodStart = s.currentPeriodStart ∧
          s'.cancelAtPeriodEnd = s.cancelAtPeriodEnd ∧
          s'.trialEndsAt = s.trialEndsAt) ∧
        (¬(s.status = "past_due" ∧ s.lemonSqueezySubscriptionId = event.data.id) →
          s' = s))
        db.subs db'.subs := by
  refine ⟨_, rfl, rfl, rfl, ?_⟩
  rw [List.forall₂_map_right_iff, List.forall₂_same]
  intro s hs
  by_cases hc : (s.lemonSqueezySubscriptionId == event.data.id
      && s.status == "past_due") = true
  · rw [if_pos hc]
    simp only [Bool.and_eq_true, beq_iff_eq] at hc
    constructor
    · intro _
      exact ⟨rfl, rfl, rfl, rfl, by simp [hc.1], rfl, rfl, rfl, rfl⟩
    · intro hn
      exact absurd ⟨hc.2, hc.1⟩ hn
  · rw [if_neg hc]
    simp only [Bool.and_eq_true, beq_iff_eq] at hc
    constructor
    · intro hp
      exact absurd (by tauto) hc
    · intro _
      rfl

end PRManager
